import Mathlib

/-!
Shallow embedding of `wagtail_footnotes` (blocks.py and
templatetags/wagtailfootnotes_tags.py).

Strings are modelled as `List Char`.  The regex
`FIND_FOOTNOTE_TAG = re.compile(r'<footnote id="(.*?)">.*?</footnote>')`
is embedded as a backtracking matcher with Python `re` semantics:
`.` matches any character except a newline, `*?` is non-greedy with the
standard backtracking order (group extends only after the tail of the
pattern fails), and `re.sub` replaces leftmost non-overlapping matches,
resuming the scan after the end of each match.

Stateful Python code (the attributes `page.footnotes_list` and
`page.footnotes_references` mutated during rendering) is embedded by
explicit state passing.  `defaultdict(list)` is an association list:
subscripting (`ddIndex`) inserts an empty entry for a missing key, while
`.get` (`ddGet`) does not.  Django's `mark_safe` is a flag on the string.
-/

/-- A footnote row (`wagtail_footnotes.models.Footnote`): a primary key,
a uuid (as its `str()` form) and a text body.  Django model equality
compares primary keys, embedded as `fnoteEq`. -/
structure Footnote where
  pk : Nat
  uuid : String
  text : String
deriving DecidableEq

/-- Django `Model.__eq__`: same primary key. -/
def fnoteEq (a b : Footnote) : Bool := a.pk == b.pk

/-- Contents of the `defaultdict(list)` stored at
`page.footnotes_references`: ordered key/value pairs. -/
abbrev RefMap := List (String × List String)

/-- Keyed read without insertion: Python `m.get(k, [])`. -/
def ddGet (m : RefMap) (k : String) : List String :=
  match m.find? (fun p => p.1 == k) with
  | some p => p.2
  | none => []

/-- Key-presence test: Python `k in m`. -/
def ddHas (m : RefMap) (k : String) : Bool := m.any (fun p => p.1 == k)

/-- `defaultdict` subscripting `m[k]`: returns the stored list, inserting
an empty entry (at the end, per dict insertion order) when the key is
missing. -/
def ddIndex (m : RefMap) (k : String) : List String × RefMap :=
  if ddHas m k then (ddGet m k, m) else ([], m ++ [(k, [])])

/-- Store `v` under `k`, the net effect of mutating the list object held
at `m[k]` (overwrite when present, append when absent). -/
def ddSet (m : RefMap) (k : String) (v : List String) : RefMap :=
  if ddHas m k then m.map (fun p => if p.1 == k then (p.1, v) else p)
  else m ++ [(k, v)]

/-- The footnote dict `{str(f.uuid): f for f in page.footnotes.all()}`:
lookup by uuid; a later entry with the same key overwrites an earlier
one, so lookup returns the last matching row. -/
def dictLookup (fns : List Footnote) (u : String) : Option Footnote :=
  fns.reverse.find? (fun f => f.uuid == u)

/- ### The regex `<footnote id="(.*?)">.*?</footnote>` -/

/-- The literal head of the pattern, `<footnote id="`. -/
def openTag : List Char := "<footnote id=\"".data

/-- The literal closing tag `</footnote>`. -/
def closeTag : List Char := "</footnote>".data

/-- Matching of `.*?</footnote>` against `s`: the dot extends one
non-newline character at a time, trying the closing literal first at
each position; returns the remainder after `</footnote>`. -/
def matchBody : List Char → Option (List Char)
  | [] => none
  | c :: cs =>
    if closeTag.isPrefixOf (c :: cs) then some ((c :: cs).drop closeTag.length)
    else if c = '\n' then none else matchBody cs

/-- Matching of `">` followed by the body pattern. -/
def matchTail : List Char → Option (List Char)
  | a :: b :: s => if a = '"' then if b = '>' then matchBody s else none else none
  | _ => none

/-- Matching of `(.*?)">.*?</footnote>`: the captured group (accumulated
reversed in `acc`) extends one non-newline character at a time, trying
the rest of the pattern first at each position — exactly the
backtracking order of the non-greedy group.  Returns the group contents
and the remainder after the whole match. -/
def grpScan : List Char → List Char → Option (List Char × List Char)
  | _, [] => none
  | acc, c :: cs =>
    match matchTail (c :: cs) with
    | some rest => some (acc.reverse, rest)
    | none => if c = '\n' then none else grpScan (c :: acc) cs

/-- Attempt to match the whole pattern at the start of `s`; on success,
the captured group (`match.group(1)`) and the remainder of `s` after the
match. -/
def matchAt (s : List Char) : Option (List Char × List Char) :=
  if openTag.isPrefixOf s then grpScan [] (s.drop openTag.length) else none

/-- Whether `s` contains a match of the pattern anywhere (leftmost scan,
as `re.search` / whether `re.sub` rewrites anything). -/
def hasMarker : List Char → Bool
  | [] => false
  | c :: cs => (matchAt (c :: cs)).isSome || hasMarker cs


/- ### Page render state and the rewriting block -/

/-- The per-render state the code keeps on the page object: the ordered
list `page.footnotes_list` and the mapping `page.footnotes_references`. -/
structure RenderState where
  footnotes_list : List Footnote
  footnotes_references : RefMap
deriving DecidableEq

/-- The page object as seen by `replace_footnote_tags`: its footnote
store (`page.footnotes.all()`), and the two render-state attributes,
`none` when the attribute has not been set (`hasattr` false). -/
structure PageObj where
  footnotes : List Footnote
  footnotes_list : Option (List Footnote)
  footnotes_references : Option RefMap
deriving DecidableEq

/-- A Python string together with whether it is a Django `SafeString`. -/
structure HtmlStr where
  str : List Char
  safe : Bool
deriving DecidableEq

/-- `django.utils.safestring.mark_safe` on a string. -/
def mark_safe (h : HtmlStr) : HtmlStr := { h with safe := true }

/-- `RichTextBlockWithFootnotes.process_footnote(footnote_id, page)`:
look the id up in the block's footnote dict (a missing key raises
`KeyError`, embedded as `none`); append the footnote to
`page.footnotes_list` when not already present (membership and `.index`
both use Django model equality); return
`page.footnotes_list.index(footnote) + 1` and the updated state. -/
def process_footnote (fns : List Footnote) (footnote_id : String)
    (page : RenderState) : Option (Nat × RenderState) :=
  match dictLookup fns footnote_id with
  | none => none
  | some footnote =>
    let lst := if page.footnotes_list.any (fun g => fnoteEq g footnote)
      then page.footnotes_list else page.footnotes_list ++ [footnote]
    some (lst.findIdx (fun g => fnoteEq g footnote) + 1,
      { page with footnotes_list := lst })

/-- The link id `f"footnote-source-{index}-{occurrence}"`. -/
def linkId (index occ : Nat) : String :=
  "footnote-source-" ++ toString index ++ "-" ++ toString occ

/-- The anchor
`f'<a href="#footnote-{index}" id="{link_id}"><sup>[{index}]</sup></a>'`. -/
def anchorChars (index : Nat) (lid : String) : List Char :=
  ("<a href=\"#footnote-" ++ toString index ++ "\" id=\"" ++ lid
    ++ "\"><sup>[" ++ toString index ++ "]</sup></a>").data

/-- The inner `replace_tag(match)`: `match.group(1)` is `u`.  A
`KeyError` (or `ValidationError`) from `process_footnote` yields the
empty replacement and leaves the state untouched.  Otherwise the
occurrence count is the current length of
`page.footnotes_references[footnote_uuid]` (subscripting the
defaultdict, which inserts an empty entry when missing), the link id is
appended to that list, and the anchor is the replacement. -/
def replace_tag (fns : List Footnote) (st : RenderState) (u : List Char) :
    List Char × RenderState :=
  let footnote_uuid := String.mk u
  match process_footnote fns footnote_uuid st with
  | none => ([], st)
  | some (index, st1) =>
    let p := ddIndex st1.footnotes_references footnote_uuid
    let lid := linkId index p.1.length
    (anchorChars index lid,
      { st1 with footnotes_references := ddSet p.2 footnote_uuid (p.1 ++ [lid]) })

/-- Fuel-indexed left-to-right scan of `FIND_FOOTNOTE_TAG.sub(replace_tag, html)`:
at each position try the pattern; on a match emit the replacement and
resume after the match, otherwise keep the character and move one to the
right.  Each step consumes at least one character, so any fuel above the
length of the input makes the fuel irrelevant. -/
def subScanF (fns : List Footnote) : Nat → RenderState → List Char →
    RenderState × List Char
  | 0, st, s => (st, s)
  | _ + 1, st, [] => (st, [])
  | fuel + 1, st, c :: cs =>
    match matchAt (c :: cs) with
    | some (u, rest) =>
      let r := replace_tag fns st u
      let q := subScanF fns fuel r.2 rest
      (q.1, r.1 ++ q.2)
    | none =>
      let q := subScanF fns fuel st cs
      (q.1, c :: q.2)

/-- `FIND_FOOTNOTE_TAG.sub(replace_tag, html)` with the state threaded. -/
def subScan (fns : List Footnote) (st : RenderState) (s : List Char) :
    RenderState × List Char :=
  subScanF fns (s.length + 1) st s

/-- `RichTextBlockWithFootnotes.replace_footnote_tags(value, html, context)`.
The context resolution is external Django code; its outcome is the
parameter: `none` when `new_context.get("page")` is absent or not a
`Page`, in which case the input is returned as-is (not re-marked safe).
Otherwise the two state attributes are initialised when absent, the
footnote dict is built from the page's store, the scan runs, and the
result of `re.sub` (a plain `str`) is `mark_safe`d. -/
def replace_footnote_tags (page : Option PageObj) (html : HtmlStr) :
    HtmlStr × Option PageObj :=
  match page with
  | none => (html, none)
  | some p =>
    let st0 : RenderState :=
      { footnotes_list := p.footnotes_list.getD []
        footnotes_references := p.footnotes_references.getD [] }
    let r := subScan p.footnotes st0 html.str
    (mark_safe { str := r.2, safe := false },
      some { p with footnotes_list := some r.1.footnotes_list
                    footnotes_references := some r.1.footnotes_references })

/-- The effective feature list set by `RichTextBlockWithFootnotes.__init__`:
a falsy `self.features` (absent/`None`/empty) becomes `[]`, then
`"footnotes"` is appended when not already present. -/
def initFeatures (features : Option (List String)) : List String :=
  let f := match features with
    | none => []
    | some l => l
  if "footnotes" ∈ f then f else f ++ ["footnotes"]

/-- The template filter `get_reference_ids(value, footnote_uuid)`: when
the value has a `footnotes_references` attribute, `.get(footnote_uuid, [])`
on it, else `[]`.  Returned alongside the (untouched) value to make the
absence of mutation explicit. -/
def get_reference_ids (value : PageObj) (footnote_uuid : String) :
    List String × PageObj :=
  match value.footnotes_references with
  | some m => (ddGet m footnote_uuid, value)
  | none => ([], value)


/-- The source text of a marker `<footnote id="U">L</footnote>`. -/
def markerChars (U L : List Char) : List Char :=
  openTag ++ U ++ '"' :: '>' :: (L ++ closeTag)

example : matchAt "<footnote id=\"u1\">[x]</footnote>tail".data
    = some ("u1".data, "tail".data) := by decide

example : hasMarker "<p>no marker here</p>".data = false := by decide

example : matchAt "<footnote id=\"u1\">[x]</footnote".data = none := by decide

example :
    replace_footnote_tags
      (some { footnotes := [{ pk := 1, uuid := "u1", text := "T" }],
              footnotes_list := none, footnotes_references := none })
      { str := "<p>A <footnote id=\"u1\">[x]</footnote> B</p>".data, safe := true }
    = ({ str := ("<p>A <a href=\"#footnote-1\" id=\"footnote-source-1-0\">"
          ++ "<sup>[1]</sup></a> B</p>").data, safe := true },
       some { footnotes := [{ pk := 1, uuid := "u1", text := "T" }],
              footnotes_list := some [{ pk := 1, uuid := "u1", text := "T" }],
              footnotes_references := some [("u1", ["footnote-source-1-0"])] }) := by
  decide

/- ### Length lemmas for the matcher -/

theorem matchBody_lt : ∀ (s r : List Char), matchBody s = some r → r.length < s.length
  | c :: cs, r, h => by
    rw [matchBody] at h
    split at h
    · have h11 : closeTag.length = 11 := by decide
      cases h
      simp [List.length_drop, h11]
      omega
    · split at h
      · exact absurd h (by simp)
      · have := matchBody_lt cs r h
        simp only [List.length_cons]
        omega

theorem matchTail_lt : ∀ (s r : List Char), matchTail s = some r → r.length < s.length := by
  intro s r h
  match s with
  | [] => simp [matchTail] at h
  | [a] => simp [matchTail] at h
  | a :: b :: s' =>
    rw [matchTail] at h
    split at h
    · split at h
      · have := matchBody_lt s' r h
        simp only [List.length_cons]
        omega
      · exact absurd h (by simp)
    · exact absurd h (by simp)

theorem grpScan_lt : ∀ (s : List Char) (acc u r : List Char),
    grpScan acc s = some (u, r) → r.length < s.length
  | c :: cs, acc, u, r, h => by
    rw [grpScan] at h
    split at h
    next rest heq =>
      cases h
      exact matchTail_lt _ _ heq
    next =>
      split at h
      · exact absurd h (by simp)
      · have := grpScan_lt cs (c :: acc) u r h
        simp only [List.length_cons]
        omega

theorem matchAt_lt (s u r : List Char) (h : matchAt s = some (u, r)) :
    r.length < s.length := by
  rw [matchAt] at h
  split at h
  · have := grpScan_lt _ _ _ _ h
    have hd : (s.drop openTag.length).length = s.length - openTag.length :=
      List.length_drop _ _
    omega
  · exact absurd h (by simp)

/- ### Behaviour of the substitution scan -/

/-- On marker-free input, the scan is the identity and touches no state
(any fuel above the input length). -/
theorem subScanF_nomarker (fns : List Footnote) :
    ∀ (s : List Char) (fuel : Nat) (st : RenderState),
      hasMarker s = false → s.length < fuel → subScanF fns fuel st s = (st, s)
  | [], fuel, st, _, hf => by
    match fuel, hf with
    | f + 1, _ => rw [subScanF]
  | c :: cs, fuel, st, hm, hf => by
    have hm1 : matchAt (c :: cs) = none := by
      cases hmm : matchAt (c :: cs) with
      | none => rfl
      | some v =>
        rw [hasMarker, hmm] at hm
        simp at hm
    have hm2 : hasMarker cs = false := by
      rw [hasMarker, hm1] at hm
      simpa using hm
    match fuel, hf with
    | f + 1, hf =>
      rw [subScanF, hm1]
      have : subScanF fns f st cs = (st, cs) := by
        apply subScanF_nomarker fns cs f st hm2
        simp only [List.length_cons] at hf
        omega
      simp [this]

/-- A prefix at none of whose positions the pattern matches is copied
through unchanged, and the scan continues on the remainder with the
fuel it has left. -/
theorem subScanF_append (fns : List Footnote) :
    ∀ (pre tail : List Char) (fuel : Nat) (st : RenderState),
      (∀ i, i < pre.length → matchAt (pre.drop i ++ tail) = none) →
      subScanF fns (pre.length + fuel) st (pre ++ tail)
        = ((subScanF fns fuel st tail).1, pre ++ (subScanF fns fuel st tail).2)
  | [], tail, fuel, st, _ => by simp
  | c :: pre', tail, fuel, st, h => by
    have h0 : matchAt (c :: (pre' ++ tail)) = none := by
      have := h 0 (by simp)
      simpa using this
    have hlen : (c :: pre').length + fuel = (pre'.length + fuel) + 1 := by
      simp only [List.length_cons]
      omega
    rw [hlen, List.cons_append, subScanF, h0]
    have ih := subScanF_append fns pre' tail fuel st
      (fun i hi => by
        have := h (i + 1) (by simp only [List.length_cons]; omega)
        simpa using this)
    simp [ih]

/- ### Matching a literal marker -/

theorem closeTag_eq : closeTag
    = ['<', '/', 'f', 'o', 'o', 't', 'n', 'o', 't', 'e', '>'] := rfl

theorem openTag_eq : openTag
    = ['<', 'f', 'o', 'o', 't', 'n', 'o', 't', 'e', ' ', 'i', 'd', '=', '"'] := rfl

theorem matchBody_close (post : List Char) :
    matchBody (closeTag ++ post) = some post := by
  rw [closeTag_eq]
  simp [matchBody, List.isPrefixOf, closeTag_eq, List.drop]

theorem matchBody_lit : ∀ (L post : List Char), '<' ∉ L → '\n' ∉ L →
    matchBody (L ++ (closeTag ++ post)) = some post
  | [], post, _, _ => by simpa using matchBody_close post
  | c :: L', post, h1, h2 => by
    have hc1 : c ≠ '<' := fun hh => h1 (hh ▸ List.mem_cons_self _ _)
    have hc2 : c ≠ '\n' := fun hh => h2 (hh ▸ List.mem_cons_self _ _)
    have hb : ('<' == c) = false := beq_eq_false_iff_ne.mpr (fun hh => hc1 hh.symm)
    have hpre : closeTag.isPrefixOf (c :: (L' ++ (closeTag ++ post))) = false := by
      rw [closeTag_eq]
      simp [List.isPrefixOf, hb]
    rw [List.cons_append, matchBody, hpre]
    simp only [Bool.false_eq_true, if_false]
    rw [if_neg hc2]
    exact matchBody_lit L' post (fun hm => h1 (List.mem_cons_of_mem _ hm))
      (fun hm => h2 (List.mem_cons_of_mem _ hm))

theorem matchTail_ne (c : Char) (s : List Char) (h : c ≠ '"') :
    matchTail (c :: s) = none := by
  match s with
  | [] => rfl
  | b :: s' =>
    rw [matchTail]
    simp [h]

theorem grpScan_lit : ∀ (U acc R rest : List Char), '"' ∉ U → '\n' ∉ U →
    matchBody R = some rest →
    grpScan acc (U ++ '"' :: '>' :: R) = some (acc.reverse ++ U, rest)
  | [], acc, R, rest, _, _, hB => by
    rw [List.nil_append, grpScan]
    simp [matchTail, hB]
  | c :: U', acc, R, rest, h1, h2, hB => by
    have hc1 : c ≠ '"' := fun hh => h1 (hh ▸ List.mem_cons_self _ _)
    have hc2 : c ≠ '\n' := fun hh => h2 (hh ▸ List.mem_cons_self _ _)
    have hmt : matchTail (c :: (U' ++ '"' :: '>' :: R)) = none := matchTail_ne _ _ hc1
    rw [List.cons_append, grpScan, hmt]
    rw [if_neg hc2]
    have ih := grpScan_lit U' (c :: acc) R rest
      (fun hm => h1 (List.mem_cons_of_mem _ hm))
      (fun hm => h2 (List.mem_cons_of_mem _ hm)) hB
    rw [ih]
    simp


/-- A literal marker (uuid without `"` or newline, label without `<` or
newline) matches at its own head, captures exactly the uuid, and the
match ends exactly at the end of the marker. -/
theorem matchAt_marker (U L post : List Char) (h1 : '"' ∉ U) (h2 : '\n' ∉ U)
    (h3 : '<' ∉ L) (h4 : '\n' ∉ L) :
    matchAt (markerChars U L ++ post) = some (U, post) := by
  have hsplit : markerChars U L ++ post
      = openTag ++ (U ++ '"' :: '>' :: (L ++ (closeTag ++ post))) := by
    simp [markerChars, List.append_assoc]
  rw [hsplit, matchAt]
  have hpre : openTag.isPrefixOf
      (openTag ++ (U ++ '"' :: '>' :: (L ++ (closeTag ++ post)))) = true := by
    rw [List.isPrefixOf_iff_prefix]
    exact List.prefix_append _ _
  rw [if_pos hpre, List.drop_left]
  rw [grpScan_lit U [] _ post h1 h2 (matchBody_lit L post h3 h4)]
  simp

/- ### Association-map lemmas -/

theorem ddGet_nil (k : String) : ddGet [] k = [] := rfl

theorem ddGet_append_of_not_has : ∀ (m es : RefMap) (k : String),
    ddHas m k = false → ddGet (m ++ es) k = ddGet es k
  | [], es, k, _ => by simp [ddGet]
  | a :: m', es, k, h => by
    have hh : (a.1 == k) = false ∧ ddHas m' k = false := by
      simpa [ddHas, Bool.or_eq_false_iff] using h
    rw [List.cons_append]
    simp only [ddGet, List.find?, hh.1]
    exact ddGet_append_of_not_has m' es k hh.2

theorem ddGet_of_not_has (m : RefMap) (k : String) (h : ddHas m k = false) :
    ddGet m k = [] := by
  have := ddGet_append_of_not_has m [] k h
  simpa using this

theorem ddGet_cons_eq (x : String × List String) (m : RefMap) (k : String)
    (h : (x.1 == k) = true) : ddGet (x :: m) k = x.2 := by
  simp [ddGet, List.find?, h]

theorem ddGet_cons_ne (x : String × List String) (m : RefMap) (k : String)
    (h : (x.1 == k) = false) : ddGet (x :: m) k = ddGet m k := by
  simp [ddGet, List.find?, h]

theorem ddGet_map_set (k : String) (v : List String) :
    ∀ (m : RefMap), ddHas m k = true →
      ddGet (m.map (fun p => if p.1 == k then (p.1, v) else p)) k = v
  | a :: m', h => by
    by_cases ha : (a.1 == k) = true
    · have hhead : (if (a.1 == k) then ((a.1, v) : String × List String) else a)
        = (a.1, v) := if_pos ha
      rw [List.map_cons, hhead]
      exact ddGet_cons_eq (a.1, v) _ k ha
    · have ha' : (a.1 == k) = false := by simpa using ha
      have h' : ddHas m' k = true := by simpa [ddHas, ha'] using h
      have hhead : (if (a.1 == k) then ((a.1, v) : String × List String) else a)
        = a := if_neg (by simp [ha'])
      rw [List.map_cons, hhead, ddGet_cons_ne _ _ _ ha']
      exact ddGet_map_set k v m' h'

theorem ddGet_ddSet_self (m : RefMap) (k : String) (v : List String) :
    ddGet (ddSet m k v) k = v := by
  by_cases hhas : ddHas m k = true
  · rw [ddSet, if_pos hhas]
    exact ddGet_map_set k v m hhas
  · have hhas' : ddHas m k = false := by simpa using hhas
    rw [ddSet, if_neg (by simp [hhas'])]
    rw [ddGet_append_of_not_has _ _ _ hhas']
    exact ddGet_cons_eq _ _ _ (by simp)

theorem ddIndex_fst (m : RefMap) (k : String) : (ddIndex m k).1 = ddGet m k := by
  by_cases h : ddHas m k = true
  · simp [ddIndex, h]
  · have h' : ddHas m k = false := by simpa using h
    simp [ddIndex, h', ddGet_of_not_has m k h']

theorem ddGet_ddIndex_snd (m : RefMap) (k : String) :
    ddGet (ddIndex m k).2 k = ddGet m k := by
  by_cases h : ddHas m k = true
  · simp [ddIndex, h]
  · have h' : ddHas m k = false := by simpa using h
    simp only [ddIndex, h', Bool.false_eq_true, if_false]
    rw [ddGet_append_of_not_has m _ k h', ddGet_of_not_has m k h']
    simp [ddGet, List.find?]

/- ### findIdx and membership lemmas -/

theorem fnoteEq_refl (f : Footnote) : fnoteEq f f = true := by simp [fnoteEq]

theorem findIdx_append_pos {α : Type} (p : α → Bool) :
    ∀ (l t : List α), l.any p = true → (l ++ t).findIdx p = l.findIdx p
  | a :: l', t, h => by
    by_cases ha : p a = true
    · simp [List.findIdx_cons, ha]
    · have ha' : p a = false := by simpa using ha
      have hl : l'.any p = true := by simpa [List.any_cons, ha'] using h
      simp [List.findIdx_cons, ha', findIdx_append_pos p l' t hl]

theorem findIdx_append_neg {α : Type} (p : α → Bool) :
    ∀ (l t : List α), l.any p = false → (l ++ t).findIdx p = l.length + t.findIdx p
  | [], t, _ => by simp
  | a :: l', t, h => by
    have ha : p a = false ∧ l'.any p = false := by
      simpa [List.any_cons, Bool.or_eq_false_iff] using h
    simp only [List.cons_append, List.findIdx_cons, ha.1, cond_false,
      List.length_cons]
    rw [findIdx_append_neg p l' t ha.2]
    omega

theorem findIdx_lt_of_any {α : Type} (p : α → Bool) :
    ∀ (l : List α), l.any p = true → l.findIdx p < l.length
  | a :: l', h => by
    by_cases ha : p a = true
    · simp [List.findIdx_cons, ha]
    · have ha' : p a = false := by simpa using ha
      have hl : l'.any p = true := by simpa [List.any_cons, ha'] using h
      simp only [List.findIdx_cons, ha', cond_false, List.length_cons]
      have := findIdx_lt_of_any p l' hl
      omega

theorem any_of_prefix {α : Type} (p : α → Bool) (l l' : List α)
    (hpre : l <+: l') (h : l.any p = true) : l'.any p = true := by
  obtain ⟨t, rfl⟩ := hpre
  simp [List.any_append, h]

/- ### Characterisation of process_footnote -/

theorem process_footnote_some (fns : List Footnote) (fid : String) (st : RenderState)
    (i : Nat) (st1 : RenderState)
    (h : process_footnote fns fid st = some (i, st1)) :
    ∃ f, dictLookup fns fid = some f ∧
      st1.footnotes_references = st.footnotes_references ∧
      st1.footnotes_list = (if st.footnotes_list.any (fun g => fnoteEq g f) = true
        then st.footnotes_list else st.footnotes_list ++ [f]) ∧
      i = st1.footnotes_list.findIdx (fun g => fnoteEq g f) + 1 ∧
      st1.footnotes_list.any (fun g => fnoteEq g f) = true := by
  cases hd : dictLookup fns fid with
  | none =>
    rw [process_footnote, hd] at h
    exact absurd h (by simp)
  | some f =>
    rw [process_footnote, hd] at h
    simp only [Option.some.injEq, Prod.mk.injEq] at h
    obtain ⟨hi, hst⟩ := h
    refine ⟨f, rfl, ?_, ?_, ?_, ?_⟩
    · rw [← hst]
    · rw [← hst]
    · rw [← hst, ← hi]
    · rw [← hst]
      by_cases hany : st.footnotes_list.any (fun g => fnoteEq g f) = true
      · simp [hany]
      · have hany' : st.footnotes_list.any (fun g => fnoteEq g f) = false := by
          simpa using hany
        simp [hany', List.any_append, fnoteEq_refl]

theorem process_footnote_stable (fns : List Footnote) (fid : String) (st : RenderState)
    (i : Nat) (st1 : RenderState)
    (h : process_footnote fns fid st = some (i, st1))
    (st2 : RenderState) (hpre : st1.footnotes_list <+: st2.footnotes_list) :
    process_footnote fns fid st2 = some (i, st2) := by
  obtain ⟨f, hd, _, _, hi, hany⟩ := process_footnote_some fns fid st i st1 h
  have hany2 : st2.footnotes_list.any (fun g => fnoteEq g f) = true :=
    any_of_prefix _ _ _ hpre hany
  obtain ⟨t, ht⟩ := hpre
  have hidx : st2.footnotes_list.findIdx (fun g => fnoteEq g f)
      = st1.footnotes_list.findIdx (fun g => fnoteEq g f) := by
    rw [← ht]
    exact findIdx_append_pos _ _ _ hany
  rw [process_footnote, hd]
  simp only [hany2, if_true, if_pos]
  rw [hidx, ← hi]

/-- When the footnote resolves, `replace_tag` emits the anchor built
from the returned index and the occurrence count (the length of the
reference-id list before appending), and appends the link id to that
list. -/
theorem replace_tag_found (fns : List Footnote) (st : RenderState) (u : List Char)
    (i : Nat) (st1 : RenderState)
    (h : process_footnote fns (String.mk u) st = some (i, st1)) :
    replace_tag fns st u
      = (anchorChars i (linkId i (ddGet st.footnotes_references (String.mk u)).length),
         RenderState.mk st1.footnotes_list
           (ddSet (ddIndex st1.footnotes_references (String.mk u)).2 (String.mk u)
             ((ddIndex st1.footnotes_references (String.mk u)).1
               ++ [linkId i (ddGet st.footnotes_references (String.mk u)).length]))) := by
  obtain ⟨f, _, hrefs, _, _, _⟩ := process_footnote_some fns (String.mk u) st i st1 h
  rw [replace_tag]
  simp only [h]
  rw [ddIndex_fst, hrefs]

/-- When the footnote does not resolve (`KeyError`), `replace_tag`
returns the empty string and an unchanged state. -/
theorem replace_tag_missing (fns : List Footnote) (st : RenderState) (u : List Char)
    (h : dictLookup fns (String.mk u) = none) :
    replace_tag fns st u = ([], st) := by
  rw [replace_tag, process_footnote, h]

/- ### Claims -/

/-- C5: when the rendering context does not yield a page object (the
resolved "page" entry is absent or not a Page), `replace_footnote_tags`
returns the input HTML unchanged — marker tags included — and no page
render state exists to be mutated. -/
theorem C5_no_page_passthrough (html : HtmlStr) :
    replace_footnote_tags none html = (html, none) := rfl

/-- C7: the effective feature list after construction equals the
caller's list in order, with "footnotes" appended at the end iff it was
not already present; no features (or an empty list) yields exactly
["footnotes"]; "footnotes" is a member of every result and constructing
again never duplicates it (idempotence). -/
theorem C7_features (l : List String) :
    ("footnotes" ∈ l → initFeatures (some l) = l) ∧
    ("footnotes" ∉ l → initFeatures (some l) = l ++ ["footnotes"]) ∧
    initFeatures none = ["footnotes"] ∧
    initFeatures (some []) = ["footnotes"] ∧
    "footnotes" ∈ initFeatures (some l) ∧
    (∀ x : Option (List String), initFeatures (some (initFeatures x)) = initFeatures x) := by
  have key : ∀ y : List String, "footnotes" ∈ y → initFeatures (some y) = y :=
    fun y hy => by simp [initFeatures, hy]
  have mem_init : ∀ x : Option (List String), "footnotes" ∈ initFeatures x := by
    intro x
    cases x with
    | none => simp [initFeatures]
    | some l' =>
      by_cases hmem : "footnotes" ∈ l'
      · simp [initFeatures, hmem]
      · simp [initFeatures, hmem]
  refine ⟨fun hmem => key l hmem, fun hmem => ?_, rfl, rfl, mem_init (some l),
    fun x => key (initFeatures x) (mem_init x)⟩
  simp [initFeatures, hmem]

theorem C7_features_witness :
    ("footnotes" ∉ ["h1", "h2"] ∧ initFeatures (some ["h1", "h2"]) = ["h1", "h2", "footnotes"]) ∧
    ("footnotes" ∈ ["h1", "footnotes"] ∧ initFeatures (some ["h1", "footnotes"]) = ["h1", "footnotes"]) ∧
    initFeatures none = ["footnotes"] := by
  refine ⟨⟨by decide, ?_⟩, ⟨by decide, ?_⟩, (C7_features []).2.2.1⟩
  · exact (C7_features ["h1", "h2"]).2.1 (by decide)
  · exact (C7_features ["h1", "footnotes"]).1 (by decide)

/-- C8 as stated is false: in the branch where no page object is
resolvable, the input string is returned as-is, so a non-safe input
yields a non-safe output — the repo's own test calls
`replace_footnote_tags(None, "foo")` with a plain `str`. -/
theorem C8_counterexample :
    ¬ ((replace_footnote_tags none { str := "foo".data, safe := false }).1.safe = true) := by
  decide

/-- C8 (amended): the result of `replace_footnote_tags` is marked safe
whenever a page object is resolved; in the no-page branch the input is
returned as-is, so the output is safe exactly when the input already
was. -/
theorem C8_safe_amended (p : PageObj) (html : HtmlStr) :
    (replace_footnote_tags (some p) html).1.safe = true ∧
    (replace_footnote_tags none html).1.safe = html.safe := by
  constructor
  · rfl
  · rfl

/-- C9: `get_reference_ids` returns the list stored in the value's
reference-id mapping for the identifier; the empty list when the
identifier has no entry, and the empty list when the value has no
`footnotes_references` attribute at all.  It is a total function, so no
exception is possible. -/
theorem C9_get_reference_ids (value : PageObj) (u : String) :
    (value.footnotes_references = none → (get_reference_ids value u).1 = []) ∧
    (∀ m : RefMap, value.footnotes_references = some m →
      (get_reference_ids value u).1 = ddGet m u ∧
      (ddHas m u = false → (get_reference_ids value u).1 = []) ∧
      (∀ e : String × List String, m.find? (fun p => p.1 == u) = some e →
        (get_reference_ids value u).1 = e.2)) := by
  refine ⟨fun hnone => ?_, fun m hsome => ⟨?_, fun hhas => ?_, fun e hfind => ?_⟩⟩
  · rw [get_reference_ids, hnone]
  · rw [get_reference_ids, hsome]
  · rw [get_reference_ids, hsome]
    exact ddGet_of_not_has m u hhas
  · rw [get_reference_ids, hsome]
    simp [ddGet, hfind]

theorem C9_get_reference_ids_witness :
    (get_reference_ids (PageObj.mk [] none (some [("a", ["x", "y"])])) "a").1 = ["x", "y"] ∧
    (get_reference_ids (PageObj.mk [] none (some [("a", ["x", "y"])])) "b").1 = [] ∧
    (get_reference_ids (PageObj.mk [] none none) "a").1 = [] := by
  refine ⟨?_, ?_, ?_⟩
  · exact ((C9_get_reference_ids (PageObj.mk [] none (some [("a", ["x", "y"])])) "a").2
      [("a", ["x", "y"])] rfl).2.2 ("a", ["x", "y"]) (by decide)
  · exact ((C9_get_reference_ids (PageObj.mk [] none (some [("a", ["x", "y"])])) "b").2
      [("a", ["x", "y"])] rfl).2.1 (by decide)
  · exact (C9_get_reference_ids (PageObj.mk [] none none) "a").1 rfl

/-- C10: `get_reference_ids` is read-only — the value (and in particular
its `footnotes_references` defaultdict) is returned unchanged for every
input, because the lookup goes through `.get` (`ddGet`), which unlike
defaultdict subscripting inserts no empty entry for a missing key. -/
theorem C10_get_reference_ids_readonly (value : PageObj) (u : String) :
    (get_reference_ids value u).2 = value := by
  rw [get_reference_ids]
  cases value.footnotes_references <;> rfl

/-- C4: a marker whose identifier is not in the page's footnote set
(including malformed identifiers, which simply miss the dict) is
replaced by the empty string, with no exception (the function is total),
no change to the reference list or the reference-id mapping, and the
surrounding HTML intact — witnessed end-to-end on a concrete page with
an empty footnote set. -/
theorem C4_unknown_marker_dropped (fns : List Footnote) (st : RenderState) (u : List Char)
    (h : dictLookup fns (String.mk u) = none) :
    replace_tag fns st u = ([], st) ∧
    replace_footnote_tags (some (PageObj.mk [] none none))
        { str := "<p>A <footnote id=\"x\">y</footnote> B</p>".data, safe := true }
      = ({ str := "<p>A  B</p>".data, safe := true },
         some (PageObj.mk [] (some []) (some []))) :=
  ⟨replace_tag_missing fns st u h, by decide⟩

theorem C4_unknown_marker_dropped_witness :
    dictLookup [Footnote.mk 1 "u1" "T"] (String.mk "zz".data) = none ∧
    replace_tag [Footnote.mk 1 "u1" "T"] (RenderState.mk [] []) "zz".data
      = ([], RenderState.mk [] []) :=
  ⟨by decide,
   (C4_unknown_marker_dropped [Footnote.mk 1 "u1" "T"] (RenderState.mk [] [])
     "zz".data (by decide)).1⟩

/-- C6: on HTML with no substring matching the marker pattern, the
rewriter returns the input string unchanged and the page's reference
list and reference-id mapping gain no entries (they keep exactly their
previous contents, initialised to empty when the attributes were
absent). -/
theorem C6_identity_no_markers (p : PageObj) (html : HtmlStr)
    (h : hasMarker html.str = false) :
    (replace_footnote_tags (some p) html).1.str = html.str ∧
    (replace_footnote_tags (some p) html).2
      = some (PageObj.mk p.footnotes (some (p.footnotes_list.getD []))
          (some (p.footnotes_references.getD []))) := by
  have hscan : subScan p.footnotes
      (RenderState.mk (p.footnotes_list.getD []) (p.footnotes_references.getD []))
      html.str
      = (RenderState.mk (p.footnotes_list.getD []) (p.footnotes_references.getD []),
         html.str) := by
    rw [subScan]
    exact subScanF_nomarker _ _ _ _ h (by omega)
  rw [replace_footnote_tags]
  rw [show (RenderState.mk (p.footnotes_list.getD []) (p.footnotes_references.getD []))
      = { footnotes_list := p.footnotes_list.getD [],
          footnotes_references := p.footnotes_references.getD [] } from rfl] at hscan
  simp only [hscan]
  constructor <;> trivial

theorem C6_identity_no_markers_witness :
    hasMarker "<p>nothing to rewrite</p>".data = false ∧
    (replace_footnote_tags (some (PageObj.mk [Footnote.mk 1 "u1" "T"] none none))
        { str := "<p>nothing to rewrite</p>".data, safe := true }).1.str
      = "<p>nothing to rewrite</p>".data :=
  ⟨by decide,
   (C6_identity_no_markers (PageObj.mk [Footnote.mk 1 "u1" "T"] none none)
     { str := "<p>nothing to rewrite</p>".data, safe := true } (by decide)).1⟩

/-- C2: for markers resolving the same footnote identifier within one
render, the emitted anchor carries the index returned by the numbering
rule with occurrence equal to the length of the identifier's
reference-id list immediately before the new link id is appended; the
append adds exactly that link id; and re-processing the identifier at
any later state (its list extended only by appending, also across
blocks sharing the page state) returns the same index without touching
the list, so occurrences run 0, 1, 2, ... in processing order — checked
concretely for two successive references to one footnote. -/
theorem C2_occurrences_increment (fns : List Footnote) (st : RenderState)
    (u : List Char) (i : Nat) (st1 : RenderState)
    (h : process_footnote fns (String.mk u) st = some (i, st1)) :
    (replace_tag fns st u).1
      = anchorChars i (linkId i (ddGet st.footnotes_references (String.mk u)).length) ∧
    ddGet (replace_tag fns st u).2.footnotes_references (String.mk u)
      = ddGet st.footnotes_references (String.mk u)
        ++ [linkId i (ddGet st.footnotes_references (String.mk u)).length] ∧
    (replace_tag fns st u).2.footnotes_list = st1.footnotes_list ∧
    (∀ st2 : RenderState, st1.footnotes_list <+: st2.footnotes_list →
      process_footnote fns (String.mk u) st2 = some (i, st2)) ∧
    (replace_tag [Footnote.mk 1 "u1" "T"] (RenderState.mk [] []) "u1".data).1
      = anchorChars 1 (linkId 1 0) ∧
    (replace_tag [Footnote.mk 1 "u1" "T"]
        (replace_tag [Footnote.mk 1 "u1" "T"] (RenderState.mk [] []) "u1".data).2
        "u1".data).1
      = anchorChars 1 (linkId 1 1) := by
  have hrt := replace_tag_found fns st u i st1 h
  obtain ⟨f, _, hrefs, _, _, _⟩ := process_footnote_some fns (String.mk u) st i st1 h
  refine ⟨?_, ?_, ?_, process_footnote_stable fns (String.mk u) st i st1 h,
    by decide, by decide⟩
  · rw [hrt]
  · rw [hrt]
    show ddGet (ddSet _ _ _) _ = _
    rw [ddGet_ddSet_self, ddIndex_fst, hrefs]
  · rw [hrt]

theorem C2_occurrences_increment_witness :
    process_footnote [Footnote.mk 1 "u1" "T"] (String.mk "u1".data) (RenderState.mk [] [])
      = some (1, RenderState.mk [Footnote.mk 1 "u1" "T"] []) ∧
    (replace_tag [Footnote.mk 1 "u1" "T"] (RenderState.mk [] []) "u1".data).1
      = anchorChars 1 (linkId 1 0) :=
  ⟨by decide,
   (C2_occurrences_increment [Footnote.mk 1 "u1" "T"] (RenderState.mk [] [])
     "u1".data 1 (RenderState.mk [Footnote.mk 1 "u1" "T"] []) (by decide)).1⟩

/-- C3: the numbering rule appends the footnote to the page's ordered
list only when not already present; the returned index always equals
its 0-based position in the list plus 1; a new footnote gets index
length+1 (first-appearance order, monotone, no gaps); indices lie in
1..length; duplicate-freeness of the list is preserved; and two
distinct markers for two distinct known footnotes in document order get
indices 1 and 2 regardless of the store's (creation) order — checked
concretely with the store listing the later-used footnote first. -/
theorem C3_numbering (fns : List Footnote) (u : String) (f : Footnote) (st : RenderState)
    (h : dictLookup fns u = some f) :
    ∃ i st1, process_footnote fns u st = some (i, st1) ∧
      st1.footnotes_references = st.footnotes_references ∧
      (st.footnotes_list.any (fun g => fnoteEq g f) = true →
        st1.footnotes_list = st.footnotes_list) ∧
      (st.footnotes_list.any (fun g => fnoteEq g f) = false →
        st1.footnotes_list = st.footnotes_list ++ [f] ∧
          i = st.footnotes_list.length + 1) ∧
      i = st1.footnotes_list.findIdx (fun g => fnoteEq g f) + 1 ∧
      1 ≤ i ∧ i ≤ st1.footnotes_list.length ∧
      (st.footnotes_list.Pairwise (fun a b => fnoteEq a b = false) →
        st1.footnotes_list.Pairwise (fun a b => fnoteEq a b = false)) ∧
      (process_footnote [Footnote.mk 2 "u2" "B", Footnote.mk 1 "u1" "A"] "u1"
          (RenderState.mk [] [])
        = some (1, RenderState.mk [Footnote.mk 1 "u1" "A"] []) ∧
       process_footnote [Footnote.mk 2 "u2" "B", Footnote.mk 1 "u1" "A"] "u2"
          (RenderState.mk [Footnote.mk 1 "u1" "A"] [])
        = some (2, RenderState.mk [Footnote.mk 1 "u1" "A", Footnote.mk 2 "u2" "B"] [])) := by
  by_cases hany : st.footnotes_list.any (fun g => fnoteEq g f) = true
  · refine ⟨st.footnotes_list.findIdx (fun g => fnoteEq g f) + 1,
      RenderState.mk st.footnotes_list st.footnotes_references,
      ?_, rfl, fun _ => rfl, fun hfalse => absurd hany (by simp [hfalse]),
      rfl, by omega, ?_, fun hd => hd, by decide⟩
    · rw [process_footnote, h]
      simp only [hany, if_true, if_pos]
    · exact findIdx_lt_of_any (fun g => fnoteEq g f) st.footnotes_list hany
  · have hany' : st.footnotes_list.any (fun g => fnoteEq g f) = false := by
      simpa using hany
    have hidx : (st.footnotes_list ++ [f]).findIdx (fun g => fnoteEq g f)
        = st.footnotes_list.length := by
      rw [findIdx_append_neg _ _ _ hany']
      simp [List.findIdx_cons, fnoteEq_refl]
    refine ⟨(st.footnotes_list ++ [f]).findIdx (fun g => fnoteEq g f) + 1,
      RenderState.mk (st.footnotes_list ++ [f]) st.footnotes_references,
      ?_, rfl, fun htrue => absurd htrue (by simp [hany']),
      fun _ => ⟨rfl, by rw [hidx]⟩, rfl, by omega, ?_, ?_, by decide⟩
    · rw [process_footnote, h]
      simp only [hany', Bool.false_eq_true, if_false]
    · rw [hidx]
      simp
    · intro hd
      rw [List.pairwise_append]
      refine ⟨hd, by simp, ?_⟩
      intro a ha b hb
      have hb' : b = f := by simpa using hb
      subst hb'
      have hall := List.any_eq_false.mp hany'
      have := hall a ha
      simpa using this

theorem C3_numbering_witness :
    dictLookup [Footnote.mk 1 "u1" "A"] "u1" = some (Footnote.mk 1 "u1" "A") ∧
    ∃ i st1, process_footnote [Footnote.mk 1 "u1" "A"] "u1" (RenderState.mk [] [])
        = some (i, st1) ∧ i = 1 :=
  ⟨by decide,
   match C3_numbering [Footnote.mk 1 "u1" "A"] "u1" (Footnote.mk 1 "u1" "A")
       (RenderState.mk [] []) (by decide) with
   | ⟨i, st1, hp, _, _, hnew, _⟩ =>
     ⟨i, st1, hp, by
       have := hnew (by decide)
       simpa using this.2⟩⟩

/-- One scan step at a matching position: emit the replacement and
resume after the match with the updated state. -/
theorem subScanF_step (fns : List Footnote) (s : List Char) (hs : s ≠ [])
    (f : Nat) (st : RenderState) (u rest : List Char)
    (hm : matchAt s = some (u, rest)) :
    subScanF fns (f + 1) st s
      = ((subScanF fns f (replace_tag fns st u).2 rest).1,
         (replace_tag fns st u).1 ++ (subScanF fns f (replace_tag fns st u).2 rest).2) := by
  match s, hs with
  | c :: cs, _ =>
    rw [subScanF, hm]

/-- C1: a first, resolvable marker `<footnote id="U">L</footnote>` in a
fresh render pass is replaced by exactly
`<a href="#footnote-1" id="footnote-source-1-0"><sup>[1]</sup></a>`,
with the HTML before and after the marker byte-identical (the pattern
matching at no position inside the prefix and nowhere in the suffix),
and the page state records the footnote and the link id; in general the
replacement of a resolved marker is the anchor built from its index and
occurrence (the exact-string conjunct pins the rendered format). -/
theorem C1_single_marker (fns : List Footnote) (f : Footnote) (b : Bool)
    (pre post U L : List Char)
    (hpre : ∀ i, i < pre.length → matchAt (pre.drop i ++ (markerChars U L ++ post)) = none)
    (hpost : hasMarker post = false)
    (h1 : '"' ∉ U) (h2 : '\n' ∉ U) (h3 : '<' ∉ L) (h4 : '\n' ∉ L)
    (hf : dictLookup fns (String.mk U) = some f) :
    replace_footnote_tags (some (PageObj.mk fns none none))
        { str := pre ++ (markerChars U L ++ post), safe := b }
      = ({ str := pre ++ (anchorChars 1 (linkId 1 0) ++ post), safe := true },
         some (PageObj.mk fns (some [f]) (some [(String.mk U, [linkId 1 0])]))) ∧
    anchorChars 1 (linkId 1 0)
      = "<a href=\"#footnote-1\" id=\"footnote-source-1-0\"><sup>[1]</sup></a>".data := by
  refine ⟨?_, by decide⟩
  have hm : matchAt (markerChars U L ++ post) = some (U, post) :=
    matchAt_marker U L post h1 h2 h3 h4
  have hpf : process_footnote fns (String.mk U) (RenderState.mk [] [])
      = some (1, RenderState.mk [f] []) := by
    rw [process_footnote, hf]
    simp [List.findIdx_cons, fnoteEq_refl]
  have hrt : replace_tag fns (RenderState.mk [] []) U
      = (anchorChars 1 (linkId 1 0),
         RenderState.mk [f] [(String.mk U, [linkId 1 0])]) := by
    have hfound := replace_tag_found fns (RenderState.mk [] []) U 1
      (RenderState.mk [f] []) hpf
    simpa [ddGet, ddIndex, ddHas, ddSet, List.find?] using hfound
  have hmlen : markerChars U L ≠ [] := by
    simp [markerChars, openTag_eq]
  have hne : markerChars U L ++ post ≠ [] := by
    intro hemp
    exact hmlen (List.append_eq_nil.mp hemp).1
  have hlt : post.length < (markerChars U L ++ post).length := by
    have h0 : 0 < (markerChars U L).length := List.length_pos.mpr hmlen
    simp only [List.length_append]
    omega
  have hfuel : (pre ++ (markerChars U L ++ post)).length + 1
      = pre.length + ((markerChars U L ++ post).length + 1) := by
    simp only [List.length_append]
    omega
  have hscan : subScan fns (RenderState.mk [] []) (pre ++ (markerChars U L ++ post))
      = (RenderState.mk [f] [(String.mk U, [linkId 1 0])],
         pre ++ (anchorChars 1 (linkId 1 0) ++ post)) := by
    rw [subScan, hfuel,
      subScanF_append fns pre (markerChars U L ++ post)
        ((markerChars U L ++ post).length + 1) (RenderState.mk [] []) hpre,
      subScanF_step fns (markerChars U L ++ post) hne
        ((markerChars U L ++ post).length) (RenderState.mk [] []) U post hm,
      hrt,
      subScanF_nomarker fns post ((markerChars U L ++ post).length)
        (RenderState.mk [f] [(String.mk U, [linkId 1 0])]) hpost hlt]
  show (mark_safe { str := (subScan fns (RenderState.mk [] [])
          (pre ++ (markerChars U L ++ post))).2, safe := false },
        some (PageObj.mk fns
          (some (subScan fns (RenderState.mk [] [])
            (pre ++ (markerChars U L ++ post))).1.footnotes_list)
          (some (subScan fns (RenderState.mk [] [])
            (pre ++ (markerChars U L ++ post))).1.footnotes_references)))
      = ({ str := pre ++ (anchorChars 1 (linkId 1 0) ++ post), safe := true },
         some (PageObj.mk fns (some [f]) (some [(String.mk U, [linkId 1 0])])))
  rw [hscan]
  rfl

theorem C1_single_marker_witness :
    (∀ i, i < ("<p>Text ".data).length →
      matchAt (("<p>Text ".data).drop i
        ++ (markerChars "f291a4b7-5ac5-4030-b341-b1993efb2ad2".data "[f291a4]".data
            ++ "</p>".data)) = none) ∧
    hasMarker "</p>".data = false ∧
    dictLookup [Footnote.mk 1 "f291a4b7-5ac5-4030-b341-b1993efb2ad2" "This is a footnote"]
        (String.mk "f291a4b7-5ac5-4030-b341-b1993efb2ad2".data)
      = some (Footnote.mk 1 "f291a4b7-5ac5-4030-b341-b1993efb2ad2" "This is a footnote") ∧
    "<p>Text ".data
        ++ (markerChars "f291a4b7-5ac5-4030-b341-b1993efb2ad2".data "[f291a4]".data
            ++ "</p>".data)
      = ("<p>Text <footnote id=\"f291a4b7-5ac5-4030-b341-b1993efb2ad2\">[f291a4]"
          ++ "</footnote></p>").data ∧
    "<p>Text ".data ++ (anchorChars 1 (linkId 1 0) ++ "</p>".data)
      = ("<p>Text <a href=\"#footnote-1\" id=\"footnote-source-1-0\">"
          ++ "<sup>[1]</sup></a></p>").data ∧
    replace_footnote_tags
        (some (PageObj.mk
          [Footnote.mk 1 "f291a4b7-5ac5-4030-b341-b1993efb2ad2" "This is a footnote"]
          none none))
        { str := "<p>Text ".data
            ++ (markerChars "f291a4b7-5ac5-4030-b341-b1993efb2ad2".data "[f291a4]".data
                ++ "</p>".data),
          safe := true }
      = ({ str := "<p>Text ".data ++ (anchorChars 1 (linkId 1 0) ++ "</p>".data),
           safe := true },
         some (PageObj.mk
           [Footnote.mk 1 "f291a4b7-5ac5-4030-b341-b1993efb2ad2" "This is a footnote"]
           (some [Footnote.mk 1 "f291a4b7-5ac5-4030-b341-b1993efb2ad2" "This is a footnote"])
           (some [(String.mk "f291a4b7-5ac5-4030-b341-b1993efb2ad2".data, [linkId 1 0])]))) :=
  ⟨by decide, by decide, by decide, by decide, by decide,
   (C1_single_marker
     [Footnote.mk 1 "f291a4b7-5ac5-4030-b341-b1993efb2ad2" "This is a footnote"]
     (Footnote.mk 1 "f291a4b7-5ac5-4030-b341-b1993efb2ad2" "This is a footnote")
     true "<p>Text ".data "</p>".data
     "f291a4b7-5ac5-4030-b341-b1993efb2ad2".data "[f291a4]".data
     (by decide) (by decide) (by decide) (by decide) (by decide) (by decide) (by decide)).1⟩
